import Mathlib

/-!
Verification of the seat-booking backend (lock service, booking service,
payment service, tenant origin gate) as a shallow embedding in Lean 4.

The embedding follows the JavaScript source:
  * `LockService` (Redis-backed seat locks with TTL) — `acquireLock`,
    `getLock`, `verifyLock`, `releaseLock`;
  * `BookingService` — `reserveSeat`, `confirmBooking`, `releaseSeat`;
  * `PaymentService` — `verifyPayment`, `validatePaymentIdFormat`;
  * `Booking.generateBookingId`;
  * the origin-whitelist portion of the `appAuth` middleware.

Stateful code becomes explicit state passing over `SysState`; every
operation returns the updated state together with an `Except` value
(JavaScript exceptions become `Except.error`, and mutations performed
before a throw persist in the returned state, as they do in the real
stores).  Times are naturals counting milliseconds since an arbitrary
epoch.  Redis lazy key expiry is modelled at the observable level: a
stored lock is visible to reads only while `now` has not passed its
expiry instant.
-/

/-- Durable seat status (`AVAILABLE`/`BOOKED` in the Mongoose schema). -/
inductive SeatStatus
  | AVAILABLE
  | BOOKED
deriving DecidableEq

/-- Reservation lifecycle status (enum of the Reservation schema). -/
inductive ResStatus
  | ACTIVE
  | EXPIRED
  | CONFIRMED
  | RELEASED
deriving DecidableEq

/-- The lowercased status text used in the Conflict message of
`confirmBooking` (`Reservation is ${reservation.status.toLowerCase()}`). -/
def ResStatus.lower : ResStatus → String
  | .ACTIVE => "active"
  | .EXPIRED => "expired"
  | .CONFIRMED => "confirmed"
  | .RELEASED => "released"

/-- The JSON value stored by `LockService.acquireLock` under key
`seat:lock:{seatId}`. -/
structure SeatLock where
  reservationToken : String
  userId : String
  timestamp : Nat
  expiresAt : Nat
deriving DecidableEq

/-- A seat document (fields of the Seat schema used by the engine). -/
structure Seat where
  seatId : String
  appId : String
  entityId : String
  seatNumber : Nat
  price : Nat
  status : SeatStatus
  bookedBy : Option String
  bookingRef : Option String
deriving DecidableEq

/-- A reservation document, with the seat snapshot kept in `metadata`. -/
structure Reservation where
  reservationToken : String
  userId : String
  appId : String
  seatId : String
  status : ResStatus
  expiresAt : Nat
  seatNumber : Nat
  price : Nat
  entityId : String
deriving DecidableEq

/-- A booking document (fields of the Booking schema set by
`confirmBooking`). -/
structure Booking where
  bookingId : String
  userId : String
  appId : String
  seatId : String
  reservationToken : String
  paymentStatus : String
  paymentId : String
  amount : Nat
  currency : String
deriving DecidableEq

/-- Typed engine errors mirroring `utils/errors.js`. -/
inductive EngineError
  | notFound (what : String)
  | conflict (msg : String)
  | seatLock (msg : String)
  | payment (msg : String)
  | store (msg : String)
deriving DecidableEq

deriving instance DecidableEq for Except

/-- Boolean success discriminator for `Except` results. -/
def isOkB : Except EngineError α → Bool
  | .ok _ => true
  | .error _ => false

/-- The combined state of the Redis lock store and the MongoDB
collections, plus the current wall-clock time in milliseconds. -/
structure SysState where
  now : Nat
  locks : String → Option SeatLock
  seats : List Seat
  reservations : List Reservation
  bookings : List Booking

/-- `env.LOCK_TTL_SECONDS` (default 120 seconds). -/
def LOCK_TTL_SECONDS : Nat := 120

/-- `LockService.getLock`: a Redis `GET` of the lock key.  A key whose
expiry instant has passed behaves exactly like an absent key (Redis lazy
expiration), so the read filters on the expiry instant. -/
def getLock (st : SysState) (seatId : String) : Option SeatLock :=
  match st.locks seatId with
  | none => none
  | some lock => if st.now ≤ lock.expiresAt then some lock else none

/-- `LockService.acquireLock`: an atomic `SET key value NX EX ttl`.
`freshToken` stands for the `uuidv4()` the code generates.  Fails with
`SeatLockError` when a live lock already exists. -/
def acquireLock (st : SysState) (seatId userId freshToken : String) :
    SysState × Except EngineError SeatLock :=
  match getLock st seatId with
  | some _ => (st, .error (.seatLock "Seat is already locked by another user"))
  | none =>
      let lock : SeatLock :=
        { reservationToken := freshToken
          userId := userId
          timestamp := st.now
          expiresAt := st.now + LOCK_TTL_SECONDS * 1000 }
      ({ st with locks := fun k => if k = seatId then some lock else st.locks k },
       .ok lock)

/-- `LockService.verifyLock`: true iff a lock is stored for the seat and
its token matches, its userId matches, and its expiry instant is strictly
in the future (`new Date(lock.expiresAt) > new Date()`). -/
def verifyLock (st : SysState) (seatId reservationToken userId : String) : Bool :=
  match getLock st seatId with
  | none => false
  | some lock =>
      decide (lock.reservationToken = reservationToken) &&
      decide (lock.userId = userId) &&
      decide (st.now < lock.expiresAt)

/-- The guard of `LockService.releaseLock`: a token was supplied and the
stored lock carries a different one. -/
def releaseTokenMismatch (st : SysState) (seatId : String) :
    Option String → Bool
  | none => false
  | some tok =>
      match getLock st seatId with
      | none => false
      | some lock => decide (lock.reservationToken ≠ tok)

/-- `LockService.releaseLock`: when a token is supplied and the stored
lock carries a different token the call throws `SeatLockError`; otherwise
the key is deleted (`DEL`) and the call returns whether a live key was
removed. -/
def releaseLock (st : SysState) (seatId : String)
    (reservationToken : Option String) : SysState × Except EngineError Bool :=
  if releaseTokenMismatch st seatId reservationToken then
    (st, .error (.seatLock "Invalid reservation token for this seat"))
  else
    ({ st with locks := fun k => if k = seatId then none else st.locks k },
     .ok (getLock st seatId).isSome)

/-- `Seat.findById`. -/
def findSeat (st : SysState) (seatId : String) : Option Seat :=
  st.seats.find? fun s => decide (s.seatId = seatId)

/-- `Reservation.findOne({ reservationToken })`. -/
def findReservation (st : SysState) (tok : String) : Option Reservation :=
  st.reservations.find? fun r => decide (r.reservationToken = tok)

/-- Persisting a status change of the reservation carrying this token. -/
def setResStatus (rs : List Reservation) (tok : String) (s : ResStatus) :
    List Reservation :=
  rs.map fun r => if r.reservationToken = tok then { r with status := s } else r

/-- Persisting an in-place update of the seat carrying this id. -/
def updateSeat (ss : List Seat) (seatId : String) (f : Seat → Seat) : List Seat :=
  ss.map fun s => if s.seatId = seatId then f s else s

/-- The response object of `reserveSeat`. -/
structure ReserveResult where
  reservationToken : String
  expiresAt : Nat
  seatId : String
  seatNumber : Nat
  price : Nat
  entityId : String
  ttl : Nat
deriving DecidableEq

/-- `BookingService.reserveSeat`.  `freshToken` is the `uuidv4()` drawn
inside `acquireLock`; `insertFails` models a failure of
`reservation.save()` (store outage or any write error).  A duplicate
`reservationToken` also fails the save through the unique index.  Note
that the source has no compensation: when the save fails the acquired
lock is left in the store. -/
def reserveSeat (st : SysState) (appId seatId userId freshToken : String)
    (insertFails : Bool) : SysState × Except EngineError ReserveResult :=
  match findSeat st seatId with
  | none => (st, .error (.notFound "Seat"))
  | some seat =>
    if seat.appId ≠ appId then
      (st, .error (.conflict "Seat does not belong to this app"))
    else if seat.status ≠ SeatStatus.AVAILABLE then
      (st, .error (.conflict "Seat is not available"))
    else
      let acq := acquireLock st seatId userId freshToken
      match acq.2 with
      | .error e => (acq.1, .error e)
      | .ok lock =>
        if insertFails || (findReservation acq.1 freshToken).isSome then
          (acq.1, .error (.store "reservation insert failed"))
        else
          let r : Reservation :=
            { reservationToken := freshToken
              userId := userId
              appId := appId
              seatId := seatId
              status := .ACTIVE
              expiresAt := lock.expiresAt
              seatNumber := seat.seatNumber
              price := seat.price
              entityId := seat.entityId }
          ({ acq.1 with reservations := acq.1.reservations ++ [r] },
           .ok { reservationToken := freshToken
                 expiresAt := lock.expiresAt
                 seatId := seat.seatId
                 seatNumber := seat.seatNumber
                 price := seat.price
                 entityId := seat.entityId
                 ttl := LOCK_TTL_SECONDS })

/-- `[A-Za-z0-9]` of the Razorpay payment-id pattern. -/
def isAlnumChar (c : Char) : Bool := c.isAlpha || c.isDigit

/-- `[A-Z0-9]` of the simulated payment-id pattern. -/
def isUpperAlnumChar (c : Char) : Bool :=
  (decide ('A' ≤ c) && decide (c ≤ 'Z')) || c.isDigit

/-- The regex `/^pay_[A-Za-z0-9]+$/` on the character list of the id. -/
def razorpayPattern : List Char → Bool
  | 'p' :: 'a' :: 'y' :: '_' :: rest => !rest.isEmpty && rest.all isAlnumChar
  | _ => false

/-- The regex `/^PAY-[A-Z0-9]+-[A-Z0-9]+$/` on the character list of the
id.  Because the character class excludes the dash, the match
decomposition is unique and maximal-munch of the first group is
faithful. -/
def simulatedPattern : List Char → Bool
  | 'P' :: 'A' :: 'Y' :: '-' :: rest =>
      match rest.dropWhile isUpperAlnumChar with
      | '-' :: b =>
          !(rest.takeWhile isUpperAlnumChar).isEmpty &&
          !b.isEmpty && b.all isUpperAlnumChar
      | _ => false
  | _ => false

/-- `PaymentService.validatePaymentIdFormat`. -/
def validatePaymentIdFormat (paymentId : String) : Bool :=
  razorpayPattern paymentId.toList || simulatedPattern paymentId.toList

/-- `PaymentService.verifyPayment`: requires a non-empty id (JavaScript
falsiness of the argument) and a well-formed id; no other check is
performed and no gateway is consulted. -/
def verifyPayment (paymentId : String) : Except EngineError String :=
  if paymentId.isEmpty then .error (.payment "Payment ID is required")
  else if !validatePaymentIdFormat paymentId then
    .error (.payment "Invalid payment ID format")
  else .ok "VERIFIED"

/-- `Booking.generateBookingId`.  `dateStr` stands for the eight digits
of the ISO date with the dashes removed, and `fracDigits` for the
base-36 digits printed after `0.` by `Math.random().toString(36)`
(an empty list when the draw prints no fractional part, e.g. for `0`).
`substring(2, 8)` of that printed number is the first six of those
digits, or all of them when fewer than six are printed. -/
def generateBookingId (dateStr : String) (fracDigits : List Char) : String :=
  "BK-" ++ dateStr ++ "-" ++ String.mk ((fracDigits.take 6).map Char.toUpper)

/-- The response object of `confirmBooking`. -/
structure ConfirmResult where
  bookingId : String
  booking : Booking
  seatId : String
  seatNumber : Nat
  entityId : String
deriving DecidableEq

/-- `BookingService.confirmBooking`.  `dateStr`/`fracDigits` feed
`generateBookingId`.  The MongoDB transaction is atomic: a duplicate
`bookingId` makes `booking.save` throw on the unique index, the
transaction aborts and nothing is written. -/
def confirmBooking (st : SysState)
    (appId reservationToken paymentId userId dateStr : String)
    (fracDigits : List Char) : SysState × Except EngineError ConfirmResult :=
  match findReservation st reservationToken with
  | none => (st, .error (.notFound "Reservation"))
  | some reservation =>
    if reservation.userId ≠ userId then
      (st, .error (.conflict "Reservation does not belong to this user"))
    else if reservation.status ≠ ResStatus.ACTIVE then
      (st, .error (.conflict ("Reservation is " ++ reservation.status.lower)))
    else if st.now > reservation.expiresAt then
      let st1 := { st with
        reservations := setResStatus st.reservations reservationToken .EXPIRED }
      let st2 := (releaseLock st1 reservation.seatId none).1
      (st2, .error (.conflict "Reservation has expired"))
    else if !verifyLock st reservation.seatId reservationToken userId then
      (st, .error (.seatLock "Reservation lock is no longer valid"))
    else
      match findSeat st reservation.seatId with
      | none => (st, .error (.conflict "Seat is no longer available"))
      | some seat =>
        if seat.status ≠ SeatStatus.AVAILABLE then
          (st, .error (.conflict "Seat is no longer available"))
        else
          match verifyPayment paymentId with
          | .error e => (st, .error e)
          | .ok _ =>
            let bookingId := generateBookingId dateStr fracDigits
            if st.bookings.any (fun b => decide (b.bookingId = bookingId)) then
              (st, .error (.store "duplicate bookingId: transaction aborted"))
            else
              let booking : Booking :=
                { bookingId := bookingId
                  userId := userId
                  appId := appId
                  seatId := seat.seatId
                  reservationToken := reservationToken
                  paymentStatus := "SUCCESS"
                  paymentId := paymentId
                  amount := seat.price
                  currency := "USD" }
              let st1 := { st with
                seats := updateSeat st.seats seat.seatId fun s =>
                  { s with status := .BOOKED
                           bookedBy := some userId
                           bookingRef := some bookingId }
                bookings := st.bookings ++ [booking]
                reservations :=
                  setResStatus st.reservations reservationToken .CONFIRMED }
              let rel := releaseLock st1 seat.seatId (some reservationToken)
              match rel.2 with
              | .error e => (rel.1, .error e)
              | .ok _ =>
                (rel.1, .ok { bookingId := bookingId
                              booking := booking
                              seatId := seat.seatId
                              seatNumber := seat.seatNumber
                              entityId := seat.entityId })

/-- `BookingService.releaseSeat`.  Only a CONFIRMED reservation is
rejected; the compare-and-delete of the lock can throw `SeatLockError`
(propagated before the status update). -/
def releaseSeat (st : SysState) (reservationToken userId : String) :
    SysState × Except EngineError Bool :=
  match findReservation st reservationToken with
  | none => (st, .error (.notFound "Reservation"))
  | some reservation =>
    if reservation.userId ≠ userId then
      (st, .error (.conflict "Reservation does not belong to this user"))
    else if reservation.status = ResStatus.CONFIRMED then
      (st, .error (.conflict "Cannot release confirmed booking"))
    else
      let rel := releaseLock st reservation.seatId (some reservationToken)
      match rel.2 with
      | .error e => (rel.1, .error e)
      | .ok _ =>
        ({ rel.1 with
            reservations := setResStatus rel.1.reservations reservationToken .RELEASED },
         .ok true)

/-- Whether `needle` occurs as a contiguous run inside `hay` —
`String.prototype.includes` on character lists. -/
def listContains (needle : List Char) : List Char → Bool
  | [] => needle.isEmpty
  | c :: t => needle.isPrefixOf (c :: t) || listContains needle t

/-- One entry of the `some` callback in `appAuth`: an entry matches when
it is the `*` wildcard, or — when the origin parses as a URL — when it
equals the hostname, equals the whole origin string, or occurs anywhere
inside the origin string (`origin.includes(allowedDomain)`).  When URL
parsing throws, only the wildcard can match. -/
def originMatchesEntry (allowedDomain origin : String)
    (hostname : Option String) : Bool :=
  if allowedDomain = "*" then true
  else
    match hostname with
    | none => false
    | some h =>
        decide (allowedDomain = h) || decide (allowedDomain = origin) ||
        listContains allowedDomain.toList origin.toList

/-- `app.allowedDomains.some(...)` in `appAuth`. -/
def isOriginAllowed (allowedDomains : List String) (origin : String)
    (hostname : Option String) : Bool :=
  allowedDomains.any fun d => originMatchesEntry d origin hostname

/-- The origin-restriction gate of `appAuth`: the body guarded by
`app.allowedDomains && app.allowedDomains.length > 0 && origin`.
`originHdr` is the request origin header (or referer fallback) paired
with its parsed hostname, `none` when the header is absent or empty.
`true` means the request passes; `false` means `AuthorizationError`. -/
def originCheckPasses (allowedDomains : List String)
    (originHdr : Option (String × Option String)) : Bool :=
  match originHdr with
  | none => true
  | some (origin, hostname) =>
      if allowedDomains.isEmpty then true
      else isOriginAllowed allowedDomains origin hostname

/-- One engine-visible transition of the system: the wall clock advances
(Redis lock expiry is the lazy visibility change this induces), or one of
the three engine operations runs atomically with arbitrary caller-chosen
arguments. -/
inductive Step : SysState → SysState → Prop
  | tick (st : SysState) (d : Nat) :
      Step st { st with now := st.now + d }
  | reserve (st : SysState) (appId seatId userId freshToken : String)
      (insertFails : Bool) :
      Step st (reserveSeat st appId seatId userId freshToken insertFails).1
  | confirm (st : SysState)
      (appId reservationToken paymentId userId dateStr : String)
      (fracDigits : List Char) :
      Step st (confirmBooking st appId reservationToken paymentId userId
        dateStr fracDigits).1
  | release (st : SysState) (reservationToken userId : String) :
      Step st (releaseSeat st reservationToken userId).1

/-- A fresh deployment: seat inventory synced, no locks, no reservations,
no bookings. -/
def initState (seats : List Seat) (startTime : Nat) : SysState :=
  { now := startTime
    locks := fun _ => none
    seats := seats
    reservations := []
    bookings := [] }

/-- States reachable from some fresh deployment through engine steps. -/
def Reachable (st : SysState) : Prop :=
  ∃ seats startTime, Relation.ReflTransGen Step (initState seats startTime) st

/-- The status recorded for a token in the durable store. -/
def resStatusOf (st : SysState) (tok : String) : Option ResStatus :=
  (findReservation st tok).map fun r => r.status

/- Concrete scenario used by several counterexamples and witnesses:
two seats of tenant `app1`, fresh deployment at time 0. -/

/-- Demo seat `S1`. -/
def seatS1 : Seat :=
  { seatId := "S1", appId := "app1", entityId := "E1", seatNumber := 1,
    price := 100, status := .AVAILABLE, bookedBy := none, bookingRef := none }

/-- Demo seat `S2`. -/
def seatS2 : Seat :=
  { seatId := "S2", appId := "app1", entityId := "E1", seatNumber := 2,
    price := 150, status := .AVAILABLE, bookedBy := none, bookingRef := none }

/-- Fresh deployment with the two demo seats. -/
def demo0 : SysState := initState [seatS1, seatS2] 0

/-- User u1 reserves S1 (token T1) at time 0. -/
def demoA : SysState := (reserveSeat demo0 "app1" "S1" "u1" "T1" false).1

/-- 121 seconds pass: the Redis key for S1 has auto-expired. -/
def demoB : SysState := { demoA with now := demoA.now + 121000 }

/-- User u2 reserves S1 again (token T2) after the lock expired. -/
def demoC : SysState := (reserveSeat demoB "app1" "S1" "u2" "T2" false).1

/-- u1 tries to confirm the expired T1: the row is marked EXPIRED. -/
def demoD : SysState :=
  (confirmBooking demoB "app1" "T1" "pay_A1" "u1" "20261011" ['a']).1

/-- u1 then releases the EXPIRED T1: the row becomes RELEASED. -/
def demoE : SysState := (releaseSeat demoD "T1" "u1").1

/-- From `demoA` (still at time 0), u1 confirms T1 with payment
`pay_A1`; the booking id is drawn as `BK-20261011-ABCDEF`. -/
def demoF : SysState :=
  (confirmBooking demoA "app1" "T1" "pay_A1" "u1" "20261011"
    ['a', 'b', 'c', 'd', 'e', 'f']).1

/-- After the first confirm, u2 reserves S2 (token T2). -/
def demoG : SysState := (reserveSeat demoF "app1" "S2" "u2" "T2" false).1

/-- Spec-side format predicate: the character shape accepted by the
Razorpay branch of the format regex. -/
def MatchesRazorpayFormat (paymentId : String) : Prop :=
  ∃ rest, rest ≠ [] ∧ (∀ c ∈ rest, isAlnumChar c = true) ∧
    paymentId.toList = 'p' :: 'a' :: 'y' :: '_' :: rest

/-- Spec-side format predicate: the character shape accepted by the
simulated branch of the format regex. -/
def MatchesSimulatedFormat (paymentId : String) : Prop :=
  ∃ a b, a ≠ [] ∧ b ≠ [] ∧ (∀ c ∈ a, isUpperAlnumChar c = true) ∧
    (∀ c ∈ b, isUpperAlnumChar c = true) ∧
    paymentId.toList = 'P' :: 'A' :: 'Y' :: '-' :: (a ++ '-' :: b)

/-- Modelled from the spec: the report of the external gateway verify
endpoint for a payment reference (captured flag, already-consumed flag).
The source `verifyPayment` performs no such call; this type exists only
to state the claim. -/
structure GatewayVerdict where
  captured : Bool
  alreadyConsumed : Bool
deriving DecidableEq

/-- Spec-side predicate: the reference carries one of the accepted
format prefixes. -/
def hasAcceptedPrefix (paymentId : String) : Bool :=
  match paymentId.toList with
  | 'p' :: 'a' :: 'y' :: '_' :: _ => true
  | 'P' :: 'A' :: 'Y' :: '-' :: _ => true
  | _ => false

/-- Spec-side entry match: exact host match, suffix match on the host,
or the `*` wildcard (the matching the claim describes). -/
def specHostMatch (entry host : String) : Bool :=
  decide (entry = "*") || decide (entry = host) ||
  entry.toList.isSuffixOf host.toList

/-- Spec-side origin acceptance: some allowed entry matches the host. -/
def specOriginAccepts (allowedDomains : List String) (host : String) : Bool :=
  allowedDomains.any fun d => specHostMatch d host

/-- The reservation tokens recorded in the durable store. -/
def resTokens (st : SysState) : List String :=
  st.reservations.map fun r => r.reservationToken

/-! ### Basic preservation lemmas about the operations -/

theorem Reachable.step {st st' : SysState} (h : Reachable st)
    (hs : Step st st') : Reachable st' := by
  obtain ⟨seats, t0, hr⟩ := h
  exact ⟨seats, t0, hr.tail hs⟩

theorem releaseLock_fst_reservations (st : SysState) (sid : String)
    (tok : Option String) :
    (releaseLock st sid tok).1.reservations = st.reservations := by
  unfold releaseLock
  split <;> rfl

theorem releaseLock_fst_bookings (st : SysState) (sid : String)
    (tok : Option String) :
    (releaseLock st sid tok).1.bookings = st.bookings := by
  unfold releaseLock
  split <;> rfl

theorem releaseLock_fst_seats (st : SysState) (sid : String)
    (tok : Option String) :
    (releaseLock st sid tok).1.seats = st.seats := by
  unfold releaseLock
  split <;> rfl

theorem releaseLock_fst_now (st : SysState) (sid : String)
    (tok : Option String) :
    (releaseLock st sid tok).1.now = st.now := by
  unfold releaseLock
  split <;> rfl

theorem getLock_congr (st st' : SysState) (sid : String)
    (hl : st.locks = st'.locks) (hn : st.now = st'.now) :
    getLock st sid = getLock st' sid := by
  unfold getLock
  rw [hl, hn]

theorem releaseTokenMismatch_congr (st st' : SysState) (sid : String)
    (tok : Option String) (hl : st.locks = st'.locks) (hn : st.now = st'.now) :
    releaseTokenMismatch st sid tok = releaseTokenMismatch st' sid tok := by
  cases tok with
  | none => rfl
  | some t =>
    unfold releaseTokenMismatch
    rw [getLock_congr st st' sid hl hn]

theorem releaseLock_snd_congr (st st' : SysState) (sid : String)
    (tok : Option String) (hl : st.locks = st'.locks) (hn : st.now = st'.now) :
    (releaseLock st sid tok).2 = (releaseLock st' sid tok).2 := by
  unfold releaseLock
  rw [releaseTokenMismatch_congr st st' sid tok hl hn,
    getLock_congr st st' sid hl hn]
  split <;> rfl

theorem acquireLock_fst_reservations (st : SysState) (sid uid tok : String) :
    (acquireLock st sid uid tok).1.reservations = st.reservations := by
  unfold acquireLock
  split <;> rfl

/-! ### C9: verifyLock -/

/-- C9.  `verifyLock(seatId, token, userId)` returns true iff a lock is
stored for `seatId` with matching token and userId whose `expiresAt` is
strictly in the future; at the instant exactly equal to `expiresAt` the
verification does not succeed. -/
theorem verifyLock_correct :
    ∀ (st : SysState) (sid tok uid : String),
      (verifyLock st sid tok uid = true ↔
        ∃ l, st.locks sid = some l ∧ l.reservationToken = tok ∧
          l.userId = uid ∧ st.now < l.expiresAt) ∧
      (∀ l, st.locks sid = some l → st.now = l.expiresAt →
        verifyLock st sid tok uid = false) := by
  intro st sid tok uid
  constructor
  · unfold verifyLock getLock
    cases h : st.locks sid with
    | none => simp
    | some l =>
      by_cases hle : st.now ≤ l.expiresAt
      · simp only [hle, if_true, Bool.and_eq_true, decide_eq_true_eq]
        constructor
        · rintro ⟨⟨h1, h2⟩, h3⟩
          exact ⟨l, rfl, h1, h2, h3⟩
        · rintro ⟨l', hl', h1, h2, h3⟩
          cases Option.some.inj hl'
          exact ⟨⟨h1, h2⟩, h3⟩
      · simp only [hle, if_false]
        constructor
        · intro hfalse
          exact absurd hfalse (by simp)
        · rintro ⟨l', hl', _, _, h3⟩
          cases Option.some.inj hl'
          exact absurd (Nat.le_of_lt h3) hle
  · intro l hl heq
    unfold verifyLock getLock
    rw [hl]
    simp [heq]

/-- Witness for C9 at the concrete reserved state `demoA`: the live
lock verifies, and at the exact expiry instant verification fails. -/
theorem verifyLock_correct_witness :
    verifyLock demoA "S1" "T1" "u1" = true ∧
    verifyLock { demoA with now := 120000 } "S1" "T1" "u1" = false := by
  constructor
  · exact (verifyLock_correct demoA "S1" "T1" "u1").1.mpr
      ⟨{ reservationToken := "T1", userId := "u1", timestamp := 0,
         expiresAt := 120000 }, by decide, rfl, rfl, by decide⟩
  · exact (verifyLock_correct { demoA with now := 120000 } "S1" "T1" "u1").2
      { reservationToken := "T1", userId := "u1", timestamp := 0,
        expiresAt := 120000 } (by decide) rfl

/-! ### C3: releaseLock -/

/-- C3 counterexample.  In the reserved state `demoA` the lock on S1
stores token T1; calling `releaseLock` with a different expected token
does not return `false` — it throws `SeatLockError` (and removes
nothing). -/
theorem releaseLock_mismatch_throws :
    (releaseLock demoA "S1" (some "WRONG")).2 =
      .error (.seatLock "Invalid reservation token for this seat") ∧
    (releaseLock demoA "S1" (some "WRONG")).2 ≠ .ok false ∧
    (releaseLock demoA "S1" (some "WRONG")).1.locks "S1" =
      demoA.locks "S1" := by
  refine ⟨by decide, by decide, by decide⟩

/-- C3 amended.  With an expected token, a stored lock with a different
token makes the call throw `SeatLockError` and remove nothing; a stored
lock with the matching token is deleted and the call returns `true`;
with no live stored lock the delete is a no-op returning `false`; with
no expected token the delete is unconditional and the call returns
whether a live key was removed. -/
theorem releaseLock_behavior :
    ∀ (st : SysState) (sid tok : String),
      (∀ l, getLock st sid = some l → l.reservationToken ≠ tok →
        releaseLock st sid (some tok) =
          (st, .error (.seatLock "Invalid reservation token for this seat"))) ∧
      (∀ l, getLock st sid = some l → l.reservationToken = tok →
        releaseLock st sid (some tok) =
          ({ st with locks := fun k => if k = sid then none else st.locks k },
           .ok true)) ∧
      (getLock st sid = none →
        releaseLock st sid (some tok) =
          ({ st with locks := fun k => if k = sid then none else st.locks k },
           .ok false)) ∧
      (releaseLock st sid none =
        ({ st with locks := fun k => if k = sid then none else st.locks k },
         .ok (getLock st sid).isSome)) := by
  intro st sid tok
  refine ⟨?_, ?_, ?_, ?_⟩
  · intro l hl hne
    unfold releaseLock releaseTokenMismatch
    rw [hl]
    simp [hne]
  · intro l hl heq
    unfold releaseLock releaseTokenMismatch
    rw [hl]
    simp [heq]
  · intro hl
    unfold releaseLock releaseTokenMismatch
    rw [hl]
    simp
  · unfold releaseLock releaseTokenMismatch
    simp

/-- Witness for C3 amended: matching-token release in `demoA` deletes
the lock and returns true. -/
theorem releaseLock_behavior_witness :
    releaseLock demoA "S1" (some "T1") =
      ({ demoA with locks := fun k => if k = "S1" then none else demoA.locks k },
       .ok true) :=
  (releaseLock_behavior demoA "S1" "T1").2.1
    { reservationToken := "T1", userId := "u1", timestamp := 0,
      expiresAt := 120000 } (by decide) rfl

/-! ### C1: reserveSeat leaves its lock behind when the insert fails -/

/-- C1.  Evaluation of `reserveSeat` at a failing input: the seat is
valid and unlocked, the lock is acquired, then the Reservation insert
fails — and the surfaced error leaves the newly acquired lock in the
store, still verifiable with the token of this very call.  The source
has no compensating release. -/
theorem reserveSeat_insert_failure_keeps_lock :
    (reserveSeat demo0 "app1" "S1" "u1" "T1" true).2 =
      .error (.store "reservation insert failed") ∧
    (reserveSeat demo0 "app1" "S1" "u1" "T1" true).1.locks "S1" =
      some { reservationToken := "T1", userId := "u1", timestamp := 0,
             expiresAt := 120000 } ∧
    verifyLock (reserveSeat demo0 "app1" "S1" "u1" "T1" true).1
      "S1" "T1" "u1" = true := by
  refine ⟨by decide, by decide, by decide⟩

/-! ### C7: payment verification -/

theorem takeWhile_all_append (p : Char → Bool) (a : List Char) (x : Char)
    (b : List Char) (ha : ∀ c ∈ a, p c = true) (hx : p x = false) :
    (a ++ x :: b).takeWhile p = a := by
  induction a with
  | nil => simp [List.takeWhile_cons, hx]
  | cons c t ih =>
    have hc : p c = true := ha c (by simp)
    simp only [List.cons_append, List.takeWhile_cons, hc, if_true]
    rw [ih fun d hd => ha d (by simp [hd])]

theorem dropWhile_all_append (p : Char → Bool) (a : List Char) (x : Char)
    (b : List Char) (ha : ∀ c ∈ a, p c = true) (hx : p x = false) :
    (a ++ x :: b).dropWhile p = x :: b := by
  induction a with
  | nil => simp [List.dropWhile_cons, hx]
  | cons c t ih =>
    have hc : p c = true := ha c (by simp)
    simp only [List.cons_append, List.dropWhile_cons, hc, if_true]
    exact ih fun d hd => ha d (by simp [hd])

theorem razorpayPattern_iff (cs : List Char) :
    razorpayPattern cs = true ↔
      ∃ rest, rest ≠ [] ∧ (∀ c ∈ rest, isAlnumChar c = true) ∧
        cs = 'p' :: 'a' :: 'y' :: '_' :: rest := by
  unfold razorpayPattern
  split
  · rename_i rest
    simp only [Bool.and_eq_true, Bool.not_eq_true', List.isEmpty_eq_false,
      List.all_eq_true]
    constructor
    · rintro ⟨h1, h2⟩
      exact ⟨rest, h1, h2, rfl⟩
    · rintro ⟨rest', h1, h2, heq⟩
      cases heq
      exact ⟨h1, h2⟩
  · rename_i hno
    simp only [Bool.false_eq_true, false_iff]
    rintro ⟨rest, _, _, heq⟩
    exact hno rest heq

theorem simulatedPattern_iff (cs : List Char) :
    simulatedPattern cs = true ↔
      ∃ a b, a ≠ [] ∧ b ≠ [] ∧ (∀ c ∈ a, isUpperAlnumChar c = true) ∧
        (∀ c ∈ b, isUpperAlnumChar c = true) ∧
        cs = 'P' :: 'A' :: 'Y' :: '-' :: (a ++ '-' :: b) := by
  have hdash : isUpperAlnumChar '-' = false := by decide
  unfold simulatedPattern
  split
  · rename_i rest
    constructor
    · intro h
      split at h
      · rename_i b hdrop
        simp only [Bool.and_eq_true, Bool.not_eq_true', List.isEmpty_eq_false,
          List.all_eq_true] at h
        obtain ⟨⟨hta, hb⟩, hball⟩ := h
        refine ⟨rest.takeWhile isUpperAlnumChar, b, hta, hb,
          fun c hc => List.mem_takeWhile_imp hc, hball, ?_⟩
        have hsplit : rest.takeWhile isUpperAlnumChar ++
            rest.dropWhile isUpperAlnumChar = rest :=
          List.takeWhile_append_dropWhile _ _
        rw [hdrop] at hsplit
        exact congrArg (fun l => 'P' :: 'A' :: 'Y' :: '-' :: l) hsplit.symm
      · exact absurd h (by simp)
    · rintro ⟨a, b, ha, hb, haall, hball, heq⟩
      have heq' : rest = a ++ '-' :: b := by
        injection heq with _ h1
        injection h1 with _ h2
        injection h2 with _ h3
        injection h3 with _ h4
      subst heq'
      rw [dropWhile_all_append _ _ _ _ haall hdash]
      rw [takeWhile_all_append _ _ _ _ haall hdash]
      simp only [Bool.and_eq_true, Bool.not_eq_true', List.isEmpty_eq_false,
        List.all_eq_true]
      exact ⟨⟨ha, hb⟩, hball⟩
  · rename_i hno
    simp only [Bool.false_eq_true, false_iff]
    rintro ⟨a, b, _, _, _, _, heq⟩
    exact hno (a ++ '-' :: b) heq

theorem isOkB_verifyPayment (pid : String) :
    isOkB (verifyPayment pid) = validatePaymentIdFormat pid := by
  unfold verifyPayment
  by_cases h : pid = ""
  · subst h
    decide
  · have hne : pid.isEmpty = false := by
      rw [Bool.eq_false_iff]
      intro habs
      exact h ((String.isEmpty_iff pid).mp habs)
    simp only [hne, Bool.false_eq_true, if_false]
    cases hv : validatePaymentIdFormat pid <;> simp [hv, isOkB]

/-- C7 counterexample.  `verifyPayment "pay_A"` succeeds even against a
gateway verdict reporting the reference as not captured: success is not
equivalent to format-plus-gateway-captured-and-unconsumed, because the
code consults no gateway at all. -/
theorem verifyPayment_gateway_counterexample :
    isOkB (verifyPayment "pay_A") = true ∧
    hasAcceptedPrefix "pay_A" = true ∧
    ¬ (isOkB (verifyPayment "pay_A") = true ↔
        hasAcceptedPrefix "pay_A" = true ∧
        (GatewayVerdict.mk false false).captured = true ∧
        (GatewayVerdict.mk false false).alreadyConsumed = false) := by
  decide

/-- C7 amended.  In reference mode, verification succeeds iff the
reference matches one of the two accepted formats (Razorpay
`pay_` + alphanumerics, or simulated `PAY-` + upper-alphanumerics + `-`
+ upper-alphanumerics); no gateway call is made, so no captured or
consumed condition is involved. -/
theorem verifyPayment_format_only :
    ∀ pid, isOkB (verifyPayment pid) = true ↔
      MatchesRazorpayFormat pid ∨ MatchesSimulatedFormat pid := by
  intro pid
  rw [isOkB_verifyPayment]
  unfold validatePaymentIdFormat
  rw [Bool.or_eq_true, razorpayPattern_iff, simulatedPattern_iff]
  exact Iff.rfl

/-! ### C6: the tenant origin gate -/

theorem listContains_iff (needle hay : List Char) :
    listContains needle hay = true ↔
      ∃ pre post, hay = pre ++ needle ++ post := by
  induction hay with
  | nil =>
    unfold listContains
    simp only [List.isEmpty_iff]
    constructor
    · intro h
      exact ⟨[], [], by simp [h]⟩
    · rintro ⟨pre, post, heq⟩
      rcases List.append_eq_nil.mp (List.append_eq_nil.mp heq.symm).1 with ⟨_, h2⟩
      exact h2
  | cons c t ih =>
    unfold listContains
    simp only [Bool.or_eq_true]
    constructor
    · rintro (hpre | hrest)
      · obtain ⟨post, hpost⟩ := List.isPrefixOf_iff_prefix.mp hpre
        exact ⟨[], post, by simp [hpost.symm]⟩
      · obtain ⟨pre, post, heq⟩ := ih.mp hrest
        exact ⟨c :: pre, post, by simp [heq]⟩
    · rintro ⟨pre, post, heq⟩
      cases pre with
      | nil =>
        left
        exact List.isPrefixOf_iff_prefix.mpr ⟨post, by simpa using heq.symm⟩
      | cons p ps =>
        right
        have h1 : c :: t = p :: (ps ++ needle ++ post) := by simpa using heq
        injection h1 with _ h2
        exact ih.mpr ⟨ps, post, h2⟩

/-- C6 counterexample.  With allowed entry `xample` and origin
`https://example.com` (hostname `example.com`), the code accepts the
request — `origin.includes("xample")` holds — although `xample` matches
the host neither exactly nor as a suffix, nor is it the wildcard, so the
claim says the request must be rejected with AuthorizationError. -/
theorem origin_substring_counterexample :
    originCheckPasses ["xample"] (some ("https://example.com", some "example.com")) = true ∧
    specOriginAccepts ["xample"] "example.com" = false := by
  refine ⟨by decide, by decide⟩

theorem originMatchesEntry_iff (d origin host : String) :
    originMatchesEntry d origin (some host) = true ↔
      d = "*" ∨ d = host ∨ d = origin ∨
        ∃ pre post, origin.toList = pre ++ d.toList ++ post := by
  unfold originMatchesEntry
  by_cases hw : d = "*"
  · simp [hw]
  · simp only [hw, if_false, Bool.or_eq_true, decide_eq_true_eq,
      listContains_iff, false_or]
    tauto

/-- C6 amended.  When the tenant has restrictions and the request
carries an origin, the request is accepted iff some allowed entry is the
`*` wildcard, or — provided the origin parses as a URL — the entry
equals the hostname, equals the whole origin string, or occurs as a
substring anywhere in the origin string (strictly more permissive than
host-suffix matching); a missing origin or an empty allow-list is always
accepted, and a non-parsing origin is accepted only via the wildcard.
Every origin accepted by the claimed host-rule whose host occurs in the
origin string is in particular accepted. -/
theorem originCheckPasses_characterization :
    ∀ (allowed : List String) (origin host : String),
      originCheckPasses allowed none = true ∧
      (allowed = [] → ∀ oh, originCheckPasses allowed (some oh) = true) ∧
      (allowed ≠ [] →
        (originCheckPasses allowed (some (origin, none)) = true ↔
          "*" ∈ allowed)) ∧
      (allowed ≠ [] →
        (originCheckPasses allowed (some (origin, some host)) = true ↔
          ∃ d ∈ allowed, d = "*" ∨ d = host ∨ d = origin ∨
            ∃ pre post, origin.toList = pre ++ d.toList ++ post)) ∧
      (∀ d ∈ allowed, specHostMatch d host = true →
        (∃ pre post, origin.toList = pre ++ host.toList ++ post) →
        originCheckPasses allowed (some (origin, some host)) = true) := by
  intro allowed origin host
  refine ⟨rfl, ?_, ?_, ?_, ?_⟩
  · intro h oh
    subst h
    cases oh
    rfl
  · intro hne
    have hemp : allowed.isEmpty = false := List.isEmpty_eq_false.mpr hne
    unfold originCheckPasses isOriginAllowed
    simp only [hemp, Bool.false_eq_true, if_false, List.any_eq_true]
    constructor
    · rintro ⟨d, hd, hm⟩
      unfold originMatchesEntry at hm
      by_cases hw : d = "*"
      · exact hw ▸ hd
      · simp [hw] at hm
    · intro hstar
      exact ⟨"*", hstar, by unfold originMatchesEntry; simp⟩
  · intro hne
    have hemp : allowed.isEmpty = false := List.isEmpty_eq_false.mpr hne
    unfold originCheckPasses isOriginAllowed
    simp only [hemp, Bool.false_eq_true, if_false, List.any_eq_true]
    constructor
    · rintro ⟨d, hd, hm⟩
      exact ⟨d, hd, (originMatchesEntry_iff d origin host).mp hm⟩
    · rintro ⟨d, hd, hm⟩
      exact ⟨d, hd, (originMatchesEntry_iff d origin host).mpr hm⟩
  · rintro d hd hmatch ⟨pre, post, hcont⟩
    have hemp : originCheckPasses allowed (some (origin, some host)) =
        if allowed.isEmpty then true else isOriginAllowed allowed origin (some host) := rfl
    rw [hemp]
    cases he : allowed.isEmpty with
    | true => rfl
    | false =>
      simp only [Bool.false_eq_true, if_false]
      unfold isOriginAllowed
      rw [List.any_eq_true]
      refine ⟨d, hd, (originMatchesEntry_iff d origin host).mpr ?_⟩
      unfold specHostMatch at hmatch
      simp only [Bool.or_eq_true, decide_eq_true_eq] at hmatch
      rcases hmatch with (hw | hexact) | hsuf
      · exact Or.inl hw
      · exact Or.inr (Or.inl hexact)
      · obtain ⟨t, ht⟩ := List.isSuffixOf_iff_suffix.mp hsuf
        refine Or.inr (Or.inr (Or.inr ⟨pre ++ t, post, ?_⟩))
        rw [hcont, ← ht]
        simp
/-- Witness for C6 amended: entry `example.com` host-suffix-matches the
host and occurs in `https://example.com`, so the gate accepts. -/
theorem originCheckPasses_characterization_witness :
    originCheckPasses ["example.com"]
      (some ("https://example.com", some "example.com")) = true :=
  (originCheckPasses_characterization ["example.com"] "https://example.com"
      "example.com").2.2.2.2 "example.com" (by decide) (by decide)
    ⟨"https://".toList, [], by decide⟩

/-! ### Reachability of the demo states -/

theorem reachable_demoA : Reachable demoA :=
  ⟨[seatS1, seatS2], 0,
    Relation.ReflTransGen.single (Step.reserve demo0 "app1" "S1" "u1" "T1" false)⟩

theorem reachable_demoB : Reachable demoB :=
  reachable_demoA.step (Step.tick demoA 121000)

theorem reachable_demoC : Reachable demoC :=
  reachable_demoB.step (Step.reserve demoB "app1" "S1" "u2" "T2" false)

theorem reachable_demoD : Reachable demoD :=
  reachable_demoB.step
    (Step.confirm demoB "app1" "T1" "pay_A1" "u1" "20261011" ['a'])

theorem reachable_demoE : Reachable demoE :=
  reachable_demoD.step (Step.release demoD "T1" "u1")

theorem reachable_demoF : Reachable demoF :=
  reachable_demoA.step
    (Step.confirm demoA "app1" "T1" "pay_A1" "u1" "20261011"
      ['a', 'b', 'c', 'd', 'e', 'f'])

theorem reachable_demoG : Reachable demoG :=
  reachable_demoF.step (Step.reserve demoF "app1" "S2" "u2" "T2" false)

/-! ### Anatomy of a successful confirmBooking -/

/-- Everything a successful `confirmBooking` guarantees: which guards
passed, the exact booking row written, and how the returned state
relates to the input state. -/
theorem confirm_ok_spec
    {st st' : SysState} {a tok p u d : String} {f : List Char}
    {res : ConfirmResult}
    (h : confirmBooking st a tok p u d f = (st', Except.ok res)) :
    ∃ r seat,
      findReservation st tok = some r ∧
      r.userId = u ∧
      r.status = ResStatus.ACTIVE ∧
      st.now ≤ r.expiresAt ∧
      findSeat st r.seatId = some seat ∧
      seat.status = SeatStatus.AVAILABLE ∧
      st.bookings.any
        (fun b => decide (b.bookingId = generateBookingId d f)) = false ∧
      res.booking =
        { bookingId := generateBookingId d f
          userId := u
          appId := a
          seatId := seat.seatId
          reservationToken := tok
          paymentStatus := "SUCCESS"
          paymentId := p
          amount := seat.price
          currency := "USD" } ∧
      st'.reservations = setResStatus st.reservations tok ResStatus.CONFIRMED ∧
      st'.bookings = st.bookings ++ [res.booking] := by
  unfold confirmBooking at h
  cases hr : findReservation st tok with
  | none => rw [hr] at h; exact absurd h (by simp)
  | some r =>
    rw [hr] at h
    dsimp only at h
    cases hs : findSeat st r.seatId with
    | none =>
      rw [hs] at h
      split_ifs at h <;> exact absurd h (by simp)
    | some seat =>
      rw [hs] at h
      cases hv : verifyPayment p with
      | error e =>
        rw [hv] at h
        dsimp only at h
        split_ifs at h <;> exact absurd h (by simp)
      | ok pv =>
        rw [hv] at h
        dsimp only at h
        split_ifs at h with h1 h2 h3 h4 h5 h6 <;>
          try exact absurd h (by simp)
        cases hrel : (releaseLock
            { st with
              seats := updateSeat st.seats seat.seatId fun s =>
                { s with status := .BOOKED
                         bookedBy := some u
                         bookingRef := some (generateBookingId d f) }
              bookings := st.bookings ++
                [{ bookingId := generateBookingId d f
                   userId := u
                   appId := a
                   seatId := seat.seatId
                   reservationToken := tok
                   paymentStatus := "SUCCESS"
                   paymentId := p
                   amount := seat.price
                   currency := "USD" }]
              reservations :=
                setResStatus st.reservations tok .CONFIRMED }
            seat.seatId (some tok)).2 with
        | error e =>
          rw [hrel] at h
          exact absurd h (by simp)
        | ok rb =>
          rw [hrel] at h
          simp only [Prod.mk.injEq, Except.ok.injEq] at h
          obtain ⟨hst', hres⟩ := h
          have hb : res.booking =
              { bookingId := generateBookingId d f
                userId := u
                appId := a
                seatId := seat.seatId
                reservationToken := tok
                paymentStatus := "SUCCESS"
                paymentId := p
                amount := seat.price
                currency := "USD" } := by rw [← hres]
          refine ⟨r, seat, rfl, not_ne_iff.mp h1, not_ne_iff.mp h2, by omega,
            hs, not_ne_iff.mp h5, by simpa using h6, hb, ?_, ?_⟩
          · rw [← hst', releaseLock_fst_reservations]
          · rw [← hst', releaseLock_fst_bookings, hb]

/-! ### C8: bookingId format and collisions -/

/-- C8 counterexample.  A `Math.random()` draw of `0.5` prints as `0.i`
in base 36, so the generated suffix is the single character `I`, not six
characters; and in the reachable state `demoG` — where the booking
`BK-20261011-ABCDEF` already exists — a confirmation whose draw
regenerates the same id aborts with an error instead of regenerating a
fresh id. -/
theorem bookingId_counterexample :
    generateBookingId "20261011" ['i'] = "BK-20261011-I" ∧
    (generateBookingId "20261011" ['i']).length = 13 ∧
    Reachable demoG ∧
    (confirmBooking demoG "app1" "T2" "pay_A2" "u2" "20261011"
        ['a', 'b', 'c', 'd', 'e', 'f']).2 =
      .error (.store "duplicate bookingId: transaction aborted") := by
  exact ⟨by decide, by decide, reachable_demoG, by decide⟩

/-- C8 amended.  A generated bookingId is `BK-`, the date digits, `-`,
then the uppercased first base-36 digits of the random draw — at most
six of them, exactly six only when the draw prints at least six
fractional digits; and when the generated id equals an existing
booking's id, the confirmation transaction aborts with an error rather
than regenerating. -/
theorem generateBookingId_shape :
    ∀ (dateStr : String) (frac : List Char),
      (∃ suffix,
        generateBookingId dateStr frac = "BK-" ++ dateStr ++ "-" ++ suffix ∧
        suffix.length = min 6 frac.length ∧
        ∀ c ∈ suffix.toList, ∃ c0 ∈ frac, c = c0.toUpper) ∧
      ∀ (st : SysState) (appId tok payId uid : String) (res : ConfirmResult),
        st.bookings.any
          (fun b => decide (b.bookingId = generateBookingId dateStr frac)) =
            true →
        (confirmBooking st appId tok payId uid dateStr frac).2 ≠ .ok res := by
  intro dateStr frac
  constructor
  · refine ⟨String.mk ((frac.take 6).map Char.toUpper), rfl, ?_, ?_⟩
    · show ((frac.take 6).map Char.toUpper).length = min 6 frac.length
      rw [List.length_map, List.length_take]
    · intro c hc
      have hc' : c ∈ (frac.take 6).map Char.toUpper := hc
      obtain ⟨c0, hc0, hup⟩ := List.mem_map.mp hc'
      exact ⟨c0, List.mem_of_mem_take hc0, hup.symm⟩
  · intro st a tok p u res hcol heq
    have hpair : confirmBooking st a tok p u dateStr frac =
        ((confirmBooking st a tok p u dateStr frac).1, Except.ok res) := by
      rw [← heq]
    obtain ⟨r, seat, -, -, -, -, -, -, hfree, -, -, -⟩ := confirm_ok_spec hpair
    rw [hcol] at hfree
    exact Bool.true_eq_false.mp hfree

/-- Witness for C8 amended, applied at the colliding confirmation in
`demoG`. -/
theorem generateBookingId_shape_witness :
    (confirmBooking demoG "app1" "T2" "pay_A2" "u2" "20261011"
        ['a', 'b', 'c', 'd', 'e', 'f']).2 ≠
      .ok { bookingId := "BK-20261011-ABCDEF"
            booking := { bookingId := "BK-20261011-ABCDEF", userId := "u2",
                         appId := "app1", seatId := "S2",
                         reservationToken := "T2", paymentStatus := "SUCCESS",
                         paymentId := "pay_A2", amount := 150,
                         currency := "USD" }
            seatId := "S2", seatNumber := 2, entityId := "E1" } :=
  (generateBookingId_shape "20261011" ['a', 'b', 'c', 'd', 'e', 'f']).2
    demoG "app1" "T2" "pay_A2" "u2" _ (by decide)

/-! ### C5: double confirmation -/

theorem find?_setResStatus (rs : List Reservation) (tok : String)
    (s : ResStatus) :
    (setResStatus rs tok s).find? (fun r => decide (r.reservationToken = tok)) =
      (rs.find? (fun r => decide (r.reservationToken = tok))).map
        (fun r => { r with status := s }) := by
  induction rs with
  | nil => rfl
  | cons r t ih =>
    by_cases hrt : r.reservationToken = tok
    · simp [setResStatus, List.find?_cons, hrt]
    · simp only [setResStatus, List.map_cons, List.find?_cons, if_neg hrt,
        decide_eq_false hrt]
      exact ih

/-- C5 counterexample.  In the reachable state `demoF` the reservation
T1 has just been confirmed with paymentId `pay_A1`; confirming the very
same `(reservationToken, paymentId)` again does not return the same
booking — it fails with Conflict. -/
theorem confirm_repeat_counterexample :
    Reachable demoF ∧
    isOkB (confirmBooking demoA "app1" "T1" "pay_A1" "u1" "20261011"
        ['a', 'b', 'c', 'd', 'e', 'f']).2 = true ∧
    (confirmBooking demoF "app1" "T1" "pay_A1" "u1" "20261011"
        ['a', 'b', 'c', 'd', 'e', 'f']).2 =
      .error (.conflict "Reservation is confirmed") := by
  exact ⟨reachable_demoF, by decide, by decide⟩

/-- C5 amended.  After a successful confirm, a second confirm of the
same reservationToken — with the same or any other paymentId, caller or
draw — fails with Conflict and leaves the state (in particular the
booking created by the first confirm) unchanged. -/
theorem confirm_second_conflicts :
    ∀ (st st' : SysState) (a tok p u d : String) (f : List Char)
      (res : ConfirmResult),
      confirmBooking st a tok p u d f = (st', Except.ok res) →
      res.booking ∈ st'.bookings ∧
      ∀ (a2 p2 u2 d2 : String) (f2 : List Char),
        ∃ msg, confirmBooking st' a2 tok p2 u2 d2 f2 =
          (st', .error (.conflict msg)) := by
  intro st st' a tok p u d f res h
  obtain ⟨r, seat, hfind, hu, hact, hexp, hseat, havail, hfree, hbook,
    hres', hbooks⟩ := confirm_ok_spec h
  have hfind' : findReservation st' tok =
      some { r with status := ResStatus.CONFIRMED } := by
    unfold findReservation at hfind ⊢
    rw [hres', find?_setResStatus, hfind]
    rfl
  constructor
  · rw [hbooks]
    simp
  · intro a2 p2 u2 d2 f2
    by_cases hu2 : r.userId ≠ u2
    · refine ⟨"Reservation does not belong to this user", ?_⟩
      unfold confirmBooking
      rw [hfind']
      dsimp only
      rw [if_pos hu2]
    · refine ⟨"Reservation is " ++ ResStatus.CONFIRMED.lower, ?_⟩
      unfold confirmBooking
      rw [hfind']
      dsimp only
      rw [if_neg hu2, if_pos (by decide : ResStatus.CONFIRMED ≠ ResStatus.ACTIVE)]

/-- Witness for C5 amended: applied to the successful first confirm of
T1, instantiated with the same paymentId again. -/
theorem confirm_second_conflicts_witness :
    ∃ msg, confirmBooking demoF "app1" "T1" "pay_A1" "u1" "20261011"
        ['a', 'b', 'c', 'd', 'e', 'f'] = (demoF, .error (.conflict msg)) :=
  (confirm_second_conflicts demoA demoF "app1" "T1" "pay_A1" "u1" "20261011"
      ['a', 'b', 'c', 'd', 'e', 'f']
      { bookingId := "BK-20261011-ABCDEF"
        booking := { bookingId := "BK-20261011-ABCDEF", userId := "u1",
                     appId := "app1", seatId := "S1",
                     reservationToken := "T1", paymentStatus := "SUCCESS",
                     paymentId := "pay_A1", amount := 100, currency := "USD" }
        seatId := "S1", seatNumber := 1, entityId := "E1" }
      rfl).2 "app1" "pay_A1" "u1" "20261011"
    ['a', 'b', 'c', 'd', 'e', 'f']

/-! ### C4: reservation status transitions -/

theorem resStatusOf_congr (st' st : SysState) (tok : String)
    (h : st'.reservations = st.reservations) :
    resStatusOf st' tok = resStatusOf st tok := by
  unfold resStatusOf findReservation
  rw [h]

theorem find?_setResStatus_other (rs : List Reservation) (tok : String)
    (s : ResStatus) (tok' : String) (hne : tok' ≠ tok) :
    (setResStatus rs tok s).find?
        (fun r => decide (r.reservationToken = tok')) =
      rs.find? (fun r => decide (r.reservationToken = tok')) := by
  induction rs with
  | nil => rfl
  | cons r t ih =>
    by_cases hrt : r.reservationToken = tok
    · have hr' : r.reservationToken ≠ tok' := by rw [hrt]; exact fun h => hne h.symm
      simp only [setResStatus, List.map_cons, if_pos hrt, List.find?_cons,
        decide_eq_false hr']
      exact ih
    · simp only [setResStatus, List.map_cons, if_neg hrt, List.find?_cons]
      cases hd : decide (r.reservationToken = tok')
      · exact ih
      · rfl

theorem reserveSeat_reservations (st : SysState)
    (a sid u ftok : String) (fail : Bool) :
    (reserveSeat st a sid u ftok fail).1.reservations = st.reservations ∨
    ∃ r, (reserveSeat st a sid u ftok fail).1.reservations =
      st.reservations ++ [r] := by
  unfold reserveSeat
  cases hfs : findSeat st sid with
  | none => exact Or.inl rfl
  | some seat =>
    dsimp only
    by_cases h1 : seat.appId ≠ a
    · rw [if_pos h1]
      exact Or.inl rfl
    · rw [if_neg h1]
      by_cases h2 : seat.status ≠ SeatStatus.AVAILABLE
      · rw [if_pos h2]
        exact Or.inl rfl
      · rw [if_neg h2]
        cases hacq : (acquireLock st sid u ftok).2 with
        | error e => exact Or.inl (acquireLock_fst_reservations st sid u ftok)
        | ok lock =>
          dsimp only
          by_cases h3 : (fail ||
              (findReservation (acquireLock st sid u ftok).1 ftok).isSome) = true
          · rw [if_pos h3]
            exact Or.inl (acquireLock_fst_reservations st sid u ftok)
          · rw [if_neg h3]
            refine Or.inr ⟨{ reservationToken := ftok
                             userId := u
                             appId := a
                             seatId := sid
                             status := .ACTIVE
                             expiresAt := lock.expiresAt
                             seatNumber := seat.seatNumber
                             price := seat.price
                             entityId := seat.entityId }, ?_⟩
            show (acquireLock st sid u ftok).1.reservations ++ _ = _
            rw [acquireLock_fst_reservations st sid u ftok]

theorem confirm_reservations_cases (st : SysState)
    (a tok p u d : String) (f : List Char) :
    (confirmBooking st a tok p u d f).1.reservations = st.reservations ∨
    ∃ r, findReservation st tok = some r ∧ r.status = ResStatus.ACTIVE ∧
      ((confirmBooking st a tok p u d f).1.reservations =
         setResStatus st.reservations tok ResStatus.EXPIRED ∨
       (confirmBooking st a tok p u d f).1.reservations =
         setResStatus st.reservations tok ResStatus.CONFIRMED) := by
  unfold confirmBooking
  cases hr : findReservation st tok with
  | none => exact Or.inl rfl
  | some r =>
    dsimp only
    by_cases h1 : r.userId ≠ u
    · rw [if_pos h1]
      exact Or.inl rfl
    · rw [if_neg h1]
      by_cases h2 : r.status ≠ ResStatus.ACTIVE
      · rw [if_pos h2]
        exact Or.inl rfl
      · rw [if_neg h2]
        by_cases h3 : st.now > r.expiresAt
        · rw [if_pos h3]
          exact Or.inr ⟨r, rfl, not_ne_iff.mp h2,
            Or.inl (releaseLock_fst_reservations _ _ _)⟩
        · rw [if_neg h3]
          by_cases h4 : (!verifyLock st r.seatId tok u) = true
          · rw [if_pos h4]
            exact Or.inl rfl
          · rw [if_neg h4]
            cases hs : findSeat st r.seatId with
            | none => exact Or.inl rfl
            | some seat =>
              dsimp only
              by_cases h5 : seat.status ≠ SeatStatus.AVAILABLE
              · rw [if_pos h5]
                exact Or.inl rfl
              · rw [if_neg h5]
                cases hv : verifyPayment p with
                | error e => exact Or.inl rfl
                | ok pv =>
                  dsimp only
                  by_cases h6 : (st.bookings.any fun b =>
                      decide (b.bookingId = generateBookingId d f)) = true
                  · rw [if_pos h6]
                    exact Or.inl rfl
                  · rw [if_neg h6]
                    refine Or.inr ⟨r, rfl, not_ne_iff.mp h2, Or.inr ?_⟩
                    cases hrel : (releaseLock
                        { st with
                          seats := updateSeat st.seats seat.seatId fun s =>
                            { s with status := .BOOKED
                                     bookedBy := some u
                                     bookingRef := some (generateBookingId d f) }
                          bookings := st.bookings ++
                            [{ bookingId := generateBookingId d f
                               userId := u
                               appId := a
                               seatId := seat.seatId
                               reservationToken := tok
                               paymentStatus := "SUCCESS"
                               paymentId := p
                               amount := seat.price
                               currency := "USD" }]
                          reservations :=
                            setResStatus st.reservations tok .CONFIRMED }
                        seat.seatId (some tok)).2 with
                    | error e => exact releaseLock_fst_reservations _ _ _
                    | ok rb => exact releaseLock_fst_reservations _ _ _

theorem releaseSeat_reservations_cases (st : SysState) (tok u : String) :
    (releaseSeat st tok u).1.reservations = st.reservations ∨
    ∃ r, findReservation st tok = some r ∧ r.status ≠ ResStatus.CONFIRMED ∧
      (releaseSeat st tok u).1.reservations =
        setResStatus st.reservations tok ResStatus.RELEASED := by
  unfold releaseSeat
  cases hr : findReservation st tok with
  | none => exact Or.inl rfl
  | some r =>
    dsimp only
    split_ifs with h1 h2
    · exact Or.inl rfl
    · exact Or.inl rfl
    · cases hrel : (releaseLock st r.seatId (some tok)).2 with
      | error e => exact Or.inl (releaseLock_fst_reservations st _ _)
      | ok rb =>
        refine Or.inr ⟨r, rfl, h2, ?_⟩
        show setResStatus (releaseLock st r.seatId (some tok)).1.reservations
            tok .RELEASED = _
        rw [releaseLock_fst_reservations]

theorem resStatusOf_eq_some {st : SysState} {tok : String} {s : ResStatus} :
    resStatusOf st tok = some s ↔
      ∃ r, findReservation st tok = some r ∧ r.status = s := by
  unfold resStatusOf
  cases h : findReservation st tok <;> simp [h]

theorem findReservation_append {st st' : SysState} {x : Reservation}
    (tok : String) (r : Reservation)
    (h' : st'.reservations = st.reservations ++ [r])
    (h : findReservation st tok = some x) :
    findReservation st' tok = some x := by
  unfold findReservation at h ⊢
  rw [h', List.find?_append, h]
  rfl

/-- C4 counterexample.  In the reachable state `demoD`, reservation T1
is EXPIRED (a terminal status per the claim); yet `releaseSeat` succeeds
on it and moves it to RELEASED. -/
theorem expired_reservation_released_counterexample :
    Reachable demoD ∧
    resStatusOf demoD "T1" = some ResStatus.EXPIRED ∧
    isOkB (releaseSeat demoD "T1" "u1").2 = true ∧
    resStatusOf demoE "T1" = some ResStatus.RELEASED := by
  exact ⟨reachable_demoD, by decide, by decide, by decide⟩

/-- C4 amended.  Over every engine step, a reservation status moves only
along `ACTIVE → {EXPIRED, CONFIRMED, RELEASED}` or `EXPIRED → RELEASED`
(the latter through `releaseSeat`, which rejects only CONFIRMED);
CONFIRMED and RELEASED are never changed. -/
theorem res_status_transitions :
    ∀ (st st' : SysState), Step st st' → ∀ (tok : String) (s s' : ResStatus),
      resStatusOf st tok = some s → resStatusOf st' tok = some s' →
      s = s' ∨ s = ResStatus.ACTIVE ∨
        (s = ResStatus.EXPIRED ∧ s' = ResStatus.RELEASED) := by
  intro st st' hstep tok s s' h1 h2
  cases hstep with
  | tick d =>
    rw [resStatusOf_congr { st with now := st.now + d } st tok rfl, h1] at h2
    exact Or.inl (Option.some.inj h2)
  | reserve a sid u ftok fail =>
    rcases reserveSeat_reservations st a sid u ftok fail with hsame | ⟨r, happ⟩
    · rw [resStatusOf_congr _ st tok hsame, h1] at h2
      exact Or.inl (Option.some.inj h2)
    · obtain ⟨x, hx, hxs⟩ := resStatusOf_eq_some.mp h1
      obtain ⟨y, hy, hys⟩ := resStatusOf_eq_some.mp h2
      have hxy : findReservation (reserveSeat st a sid u ftok fail).1 tok =
          some x := findReservation_append tok r happ hx
      rw [hxy] at hy
      cases Option.some.inj hy
      exact Or.inl (hxs ▸ hys)
  | confirm a ctok p u d f =>
    rcases confirm_reservations_cases st a ctok p u d f with
      hsame | ⟨r, hr, hact, hset⟩
    · rw [resStatusOf_congr _ st tok hsame, h1] at h2
      exact Or.inl (Option.some.inj h2)
    · by_cases htk : tok = ctok
      · subst htk
        obtain ⟨x, hx, hxs⟩ := resStatusOf_eq_some.mp h1
        rw [hr] at hx
        cases Option.some.inj hx
        exact Or.inr (Or.inl (hxs ▸ hact))
      · have hsame : resStatusOf (confirmBooking st a ctok p u d f).1 tok =
            resStatusOf st tok := by
          unfold resStatusOf findReservation
          rcases hset with hE | hC
          · rw [hE, find?_setResStatus_other _ _ _ _ htk]
          · rw [hC, find?_setResStatus_other _ _ _ _ htk]
        rw [hsame, h1] at h2
        exact Or.inl (Option.some.inj h2)
  | release rtok u =>
    rcases releaseSeat_reservations_cases st rtok u with
      hsame | ⟨r, hr, hncon, hset⟩
    · rw [resStatusOf_congr _ st tok hsame, h1] at h2
      exact Or.inl (Option.some.inj h2)
    · by_cases htk : tok = rtok
      · subst htk
        obtain ⟨x, hx, hxs⟩ := resStatusOf_eq_some.mp h1
        rw [hr] at hx
        cases Option.some.inj hx
        have hfind' : findReservation (releaseSeat st tok u).1 tok =
            some { r with status := ResStatus.RELEASED } := by
          unfold findReservation
          rw [hset]
          unfold findReservation at hr
          rw [find?_setResStatus, hr]
          rfl
        have hst' : resStatusOf (releaseSeat st tok u).1 tok =
            some ResStatus.RELEASED := by
          unfold resStatusOf
          rw [hfind']
          rfl
        rw [hst'] at h2
        have hs' : s' = ResStatus.RELEASED := (Option.some.inj h2).symm
        have hs : s = r.status := hxs.symm
        cases hxstat : r.status with
        | ACTIVE => exact Or.inr (Or.inl (by rw [hs, hxstat]))
        | EXPIRED => exact Or.inr (Or.inr ⟨by rw [hs, hxstat], hs'⟩)
        | CONFIRMED => exact absurd hxstat hncon
        | RELEASED => exact Or.inl (by rw [hs, hxstat, hs'])
      · have hsame : resStatusOf (releaseSeat st rtok u).1 tok =
            resStatusOf st tok := by
          unfold resStatusOf findReservation
          rw [hset, find?_setResStatus_other _ _ _ _ htk]
        rw [hsame, h1] at h2
        exact Or.inl (Option.some.inj h2)

/-- Witness for C4 amended at the release step from `demoD` to `demoE`:
the EXPIRED-to-RELEASED transition instantiates the third disjunct. -/
theorem res_status_transitions_witness :
    ResStatus.EXPIRED = ResStatus.RELEASED ∨
    ResStatus.EXPIRED = ResStatus.ACTIVE ∨
    (ResStatus.EXPIRED = ResStatus.EXPIRED ∧
     ResStatus.RELEASED = ResStatus.RELEASED) :=
  res_status_transitions demoD demoE (Step.release demoD "T1" "u1") "T1"
    ResStatus.EXPIRED ResStatus.RELEASED (by decide) (by decide)

/-! ### C2: locks and ACTIVE reservations per seat -/

theorem setResStatus_tokens (rs : List Reservation) (tok : String)
    (s : ResStatus) :
    (setResStatus rs tok s).map (fun r => r.reservationToken) =
      rs.map fun r => r.reservationToken := by
  induction rs with
  | nil => rfl
  | cons r t ih =>
    have hhead : ((if r.reservationToken = tok then { r with status := s }
        else r) : Reservation).reservationToken = r.reservationToken := by
      split <;> rfl
    simp only [setResStatus, List.map_cons] at ih ⊢
    rw [hhead, ih]

theorem reserveSeat_tokens_nodup (st : SysState) (a sid u ftok : String)
    (fail : Bool) (h : (resTokens st).Nodup) :
    (resTokens (reserveSeat st a sid u ftok fail).1).Nodup := by
  unfold reserveSeat
  cases hfs : findSeat st sid with
  | none => exact h
  | some seat =>
    dsimp only
    by_cases h1 : seat.appId ≠ a
    · rw [if_pos h1]; exact h
    · rw [if_neg h1]
      by_cases h2 : seat.status ≠ SeatStatus.AVAILABLE
      · rw [if_pos h2]; exact h
      · rw [if_neg h2]
        cases hacq : (acquireLock st sid u ftok).2 with
        | error e =>
          show (resTokens (acquireLock st sid u ftok).1).Nodup
          unfold resTokens
          rw [acquireLock_fst_reservations]
          exact h
        | ok lock =>
          dsimp only
          by_cases h3 : (fail ||
              (findReservation (acquireLock st sid u ftok).1 ftok).isSome) = true
          · rw [if_pos h3]
            show (resTokens (acquireLock st sid u ftok).1).Nodup
            unfold resTokens
            rw [acquireLock_fst_reservations]
            exact h
          · rw [if_neg h3]
            simp only [Bool.or_eq_true, not_or, Bool.not_eq_true] at h3
            obtain ⟨-, hfree⟩ := h3
            have hnone : findReservation (acquireLock st sid u ftok).1 ftok =
                none := by
              cases hq : findReservation (acquireLock st sid u ftok).1 ftok with
              | none => rfl
              | some q => rw [hq] at hfree; exact absurd hfree (by simp)
            unfold findReservation at hnone
            rw [acquireLock_fst_reservations] at hnone
            have hnotin : ∀ x ∈ st.reservations, x.reservationToken ≠ ftok := by
              intro x hx
              have := List.find?_eq_none.mp hnone x hx
              simpa using this
            show (((acquireLock st sid u ftok).1.reservations ++
              [({ reservationToken := ftok
                  userId := u
                  appId := a
                  seatId := sid
                  status := .ACTIVE
                  expiresAt := lock.expiresAt
                  seatNumber := seat.seatNumber
                  price := seat.price
                  entityId := seat.entityId } : Reservation)]).map
                (fun r => r.reservationToken)).Nodup
            rw [acquireLock_fst_reservations, List.map_append]
            rw [List.nodup_append]
            refine ⟨h, List.nodup_singleton _, ?_⟩
            intro v hv hv'
            simp only [List.map_cons, List.map_nil, List.mem_singleton] at hv'
            obtain ⟨x, hx, hxv⟩ := List.mem_map.mp hv
            exact hnotin x hx (hxv.trans hv')

theorem step_tokens_nodup {st st' : SysState} (hs : Step st st')
    (h : (resTokens st).Nodup) : (resTokens st').Nodup := by
  cases hs with
  | tick d => exact h
  | reserve a sid u ftok fail => exact reserveSeat_tokens_nodup st a sid u ftok fail h
  | confirm a ctok p u d f =>
    rcases confirm_reservations_cases st a ctok p u d f with hsame | ⟨r, -, -, hset⟩
    · unfold resTokens
      rw [hsame]
      exact h
    · rcases hset with hE | hC
      · unfold resTokens
        rw [hE, setResStatus_tokens]
        exact h
      · unfold resTokens
        rw [hC, setResStatus_tokens]
        exact h
  | release rtok u =>
    rcases releaseSeat_reservations_cases st rtok u with hsame | ⟨r, -, -, hset⟩
    · unfold resTokens
      rw [hsame]
      exact h
    · unfold resTokens
      rw [hset, setResStatus_tokens]
      exact h

theorem reachable_tokens_nodup (st : SysState) (h : Reachable st) :
    (resTokens st).Nodup := by
  obtain ⟨seats, t0, hr⟩ := h
  induction hr with
  | refl => simp [resTokens, initState]
  | tail hab hbc ih => exact step_tokens_nodup hbc ih

theorem length_filter_token_le_one (rs : List Reservation) (v : String)
    (p : Reservation → Bool)
    (h : (rs.map fun r => r.reservationToken).Nodup) :
    (rs.filter fun r => p r && decide (r.reservationToken = v)).length ≤ 1 := by
  induction rs with
  | nil => simp
  | cons r t ih =>
    simp only [List.map_cons, List.nodup_cons] at h
    obtain ⟨hnotin, hnd⟩ := h
    by_cases hkeep : (p r && decide (r.reservationToken = v)) = true
    · have hfc : List.filter (fun r => p r && decide (r.reservationToken = v))
          (r :: t) =
          r :: List.filter (fun r => p r && decide (r.reservationToken = v)) t :=
        List.filter_cons_of_pos hkeep
      rw [hfc]
      have hempty : (t.filter fun r => p r && decide (r.reservationToken = v)) =
          [] := by
        rw [List.filter_eq_nil_iff]
        intro x hx hpx
        simp only [Bool.and_eq_true, decide_eq_true_eq] at hpx hkeep
        refine hnotin ?_
        rw [hkeep.2, ← hpx.2]
        exact List.mem_map_of_mem _ hx
      rw [hempty]
      simp
    · have hfc : List.filter (fun r => p r && decide (r.reservationToken = v))
          (r :: t) =
          List.filter (fun r => p r && decide (r.reservationToken = v)) t :=
        List.filter_cons_of_neg (by simpa using hkeep)
      rw [hfc]
      exact ih hnd

/-- C2 counterexample.  `demoC` is reachable (reserve S1, wait past the
TTL, reserve S1 again) and carries two reservations with status ACTIVE
for seat S1: expiry is lazy, so the claimed at-most-one-ACTIVE-row
invariant fails. -/
theorem two_active_reservations_counterexample :
    Reachable demoC ∧
    (demoC.reservations.filter fun r =>
      decide (r.seatId = "S1") &&
      decide (r.status = ResStatus.ACTIVE)).length = 2 := by
  exact ⟨reachable_demoC, by decide⟩

/-- C2 amended.  In every reachable state each seat has at most one
stored lock (the lock store is a keyed map), and at most one ACTIVE
reservation row whose token matches that lock — the confirmable one.
ACTIVE rows themselves can accumulate because reservation expiry is
observed lazily. -/
theorem at_most_one_lock_and_matching_active :
    ∀ st, Reachable st → ∀ (sid : String) (l : SeatLock),
      (∀ l₂, st.locks sid = some l → st.locks sid = some l₂ → l = l₂) ∧
      (st.locks sid = some l →
        (st.reservations.filter fun r =>
          (decide (r.seatId = sid) && decide (r.status = ResStatus.ACTIVE)) &&
          decide (r.reservationToken = l.reservationToken)).length ≤ 1) := by
  intro st hre sid l
  constructor
  · intro l₂ hl1 hl2
    rw [hl1] at hl2
    exact Option.some.inj hl2
  · intro _
    exact length_filter_token_le_one _ _ _ (reachable_tokens_nodup st hre)

/-- Witness for C2 amended at the reachable state `demoA` and the live
lock on S1. -/
theorem at_most_one_lock_and_matching_active_witness :
    (demoA.reservations.filter fun r =>
      (decide (r.seatId = "S1") && decide (r.status = ResStatus.ACTIVE)) &&
      decide (r.reservationToken = "T1")).length ≤ 1 :=
  (at_most_one_lock_and_matching_active demoA reachable_demoA "S1"
    { reservationToken := "T1", userId := "u1", timestamp := 0,
      expiresAt := 120000 }).2 (by decide)

/-! ### C10: confirmBooking never compares tenants -/

/-- C10.  `confirmBooking` never compares the caller tenant with the
reservation's or seat's tenant: two confirms identical except for the
caller `appId` have the same success/failure outcome, and a successful
confirm records the caller's `appId` on the created Booking (even when
it differs from the seat's `appId`). -/
theorem confirm_tenant_blind :
    ∀ (st : SysState) (appId1 appId2 tok payId uid dateStr : String)
      (frac : List Char),
      isOkB (confirmBooking st appId1 tok payId uid dateStr frac).2 =
        isOkB (confirmBooking st appId2 tok payId uid dateStr frac).2 ∧
      ∀ res, (confirmBooking st appId1 tok payId uid dateStr frac).2 =
          .ok res → res.booking.appId = appId1 := by
  intro st a1 a2 tok p u d f
  constructor
  · unfold confirmBooking
    cases hr : findReservation st tok with
    | none => rfl
    | some r =>
      dsimp only
      by_cases h1 : r.userId ≠ u
      · simp only [if_pos h1]
      · simp only [if_neg h1]
        by_cases h2 : r.status ≠ ResStatus.ACTIVE
        · simp only [if_pos h2]
        · simp only [if_neg h2]
          by_cases h3 : st.now > r.expiresAt
          · simp only [if_pos h3]
          · simp only [if_neg h3]
            by_cases h4 : (!verifyLock st r.seatId tok u) = true
            · simp only [if_pos h4]
            · simp only [if_neg h4]
              cases hs : findSeat st r.seatId with
              | none => rfl
              | some seat =>
                dsimp only
                by_cases h5 : seat.status ≠ SeatStatus.AVAILABLE
                · simp only [if_pos h5]
                · simp only [if_neg h5]
                  cases hv : verifyPayment p with
                  | error e => rfl
                  | ok pv =>
                    dsimp only
                    by_cases h6 : (st.bookings.any fun b =>
                        decide (b.bookingId = generateBookingId d f)) = true
                    · simp only [if_pos h6]
                    · simp only [if_neg h6]
                      have hcong : (releaseLock
                          { st with
                            seats := updateSeat st.seats seat.seatId fun s =>
                              { s with status := .BOOKED
                                       bookedBy := some u
                                       bookingRef :=
                                         some (generateBookingId d f) }
                            bookings := st.bookings ++
                              [{ bookingId := generateBookingId d f
                                 userId := u
                                 appId := a2
                                 seatId := seat.seatId
                                 reservationToken := tok
                                 paymentStatus := "SUCCESS"
                                 paymentId := p
                                 amount := seat.price
                                 currency := "USD" }]
                            reservations :=
                              setResStatus st.reservations tok .CONFIRMED }
                          seat.seatId (some tok)).2 = (releaseLock
                          { st with
                            seats := updateSeat st.seats seat.seatId fun s =>
                              { s with status := .BOOKED
                                       bookedBy := some u
                                       bookingRef :=
                                         some (generateBookingId d f) }
                            bookings := st.bookings ++
                              [{ bookingId := generateBookingId d f
                                 userId := u
                                 appId := a1
                                 seatId := seat.seatId
                                 reservationToken := tok
                                 paymentStatus := "SUCCESS"
                                 paymentId := p
                                 amount := seat.price
                                 currency := "USD" }]
                            reservations :=
                              setResStatus st.reservations tok .CONFIRMED }
                          seat.seatId (some tok)).2 :=
                        releaseLock_snd_congr _ _ seat.seatId (some tok) rfl rfl
                      rw [hcong]
                      cases hrel : (releaseLock
                          { st with
                            seats := updateSeat st.seats seat.seatId fun s =>
                              { s with status := .BOOKED
                                       bookedBy := some u
                                       bookingRef :=
                                         some (generateBookingId d f) }
                            bookings := st.bookings ++
                              [{ bookingId := generateBookingId d f
                                 userId := u
                                 appId := a1
                                 seatId := seat.seatId
                                 reservationToken := tok
                                 paymentStatus := "SUCCESS"
                                 paymentId := p
                                 amount := seat.price
                                 currency := "USD" }]
                            reservations :=
                              setResStatus st.reservations tok .CONFIRMED }
                          seat.seatId (some tok)).2 with
                      | error e => rfl
                      | ok rb => rfl
  · intro res h
    have hpair : confirmBooking st a1 tok p u d f =
        ((confirmBooking st a1 tok p u d f).1, Except.ok res) := by
      rw [← h]
    obtain ⟨r, seat, -, -, -, -, -, -, -, hbook, -, -⟩ := confirm_ok_spec hpair
    rw [hbook]

/-- Witness for C10 at the reachable state `demoA`: tenant `appX` (not
the seat tenant `app1`) confirms successfully and the booking records
`appX`; the outcome matches the `app1` call. -/
theorem confirm_tenant_blind_witness :
    (isOkB (confirmBooking demoA "appX" "T1" "pay_A1" "u1" "20261011"
        ['a', 'b', 'c', 'd', 'e', 'f']).2 =
      isOkB (confirmBooking demoA "app1" "T1" "pay_A1" "u1" "20261011"
        ['a', 'b', 'c', 'd', 'e', 'f']).2) ∧
    ({ bookingId := "BK-20261011-ABCDEF"
       booking := { bookingId := "BK-20261011-ABCDEF", userId := "u1",
                    appId := "appX", seatId := "S1",
                    reservationToken := "T1", paymentStatus := "SUCCESS",
                    paymentId := "pay_A1", amount := 100, currency := "USD" }
       seatId := "S1", seatNumber := 1,
       entityId := "E1" } : ConfirmResult).booking.appId = "appX" :=
  ⟨(confirm_tenant_blind demoA "appX" "app1" "T1" "pay_A1" "u1" "20261011"
      ['a', 'b', 'c', 'd', 'e', 'f']).1,
   (confirm_tenant_blind demoA "appX" "app1" "T1" "pay_A1" "u1" "20261011"
      ['a', 'b', 'c', 'd', 'e', 'f']).2 _ (by decide)⟩
